import Mathlib

/-!
Shallow embedding of the order_gui operator console (Python sources under
src/) used to check the natural-language specification against the code.

Conventions of the embedding:
* Python strings are Lean `String`s; character-level operations go through
  `String.data` (a `List Char`).
* Python dicts holding order fields are association lists
  (`List (String × String)`, called `Record` as in the spec); dict
  assignment preserves insertion order and replaces in place, which
  `recSet` mirrors.
* Python list indexing, slicing and `str.strip` are modelled by `pyIndex`,
  `pySliceTo` and `pyStrip` with Python semantics (negative indices count
  from the end; out-of-range indexing is `none`, standing for IndexError).
* curses key presses are `Nat` key codes; the relevant curses constants
  are bound below.
-/

namespace OrderGui

/-- A Record: ordered mapping of field name to value (Python dict of str). -/
abbrev Record := List (String × String)

/-- Python `d[k]` / `d.get(k)` as an option: first binding for `k`. -/
def recGet? (r : Record) (k : String) : Option String :=
  match r.find? (fun p => p.1 = k) with
  | some p => some p.2
  | none => none

/-- Python `d.get(k, dflt)`. -/
def recGetD (r : Record) (k : String) (dflt : String) : String :=
  (recGet? r k).getD dflt

/-- Python `d[k] = v`: replace the value in place when the key is present
(keeping insertion order), otherwise append the new binding. -/
def recSet (r : Record) (k : String) (v : String) : Record :=
  if r.any (fun p => p.1 = k) then
    r.map (fun p => if p.1 = k then (k, v) else p)
  else
    r ++ [(k, v)]

/-- Python list indexing `l[i]` with an `int` index: negative indices count
from the end; an out-of-range index is `none` (IndexError). -/
def pyIndex {α : Type} (l : List α) (i : Int) : Option α :=
  if 0 ≤ i then l.get? i.toNat
  else
    let j : Int := (l.length : Int) + i
    if 0 ≤ j then l.get? j.toNat else none

/-- Python slice `s[:i]` on a character list: a negative bound counts from
the end and clamps at zero. -/
def pySliceTo (s : List Char) (i : Int) : List Char :=
  if 0 ≤ i then s.take i.toNat
  else s.take ((s.length : Int) + i).toNat

/-- Python `str.strip()` (whitespace on both ends). -/
def pyStrip (s : String) : String :=
  ⟨(s.data.dropWhile Char.isWhitespace).reverse.dropWhile Char.isWhitespace |>.reverse⟩

/-- Python `needle in haystack` on strings (substring containment). -/
def pyIn (needle haystack : String) : Bool :=
  go needle.data haystack.data
where
  go (pat : List Char) : List Char → Bool
  | [] => pat.isPrefixOf []
  | c :: rest => pat.isPrefixOf (c :: rest) || go pat rest

/-! ## src/ui/utils.py: truncate_text -/

/-- `truncate_text(text, max_width, suffix="...")` from src/ui/utils.py:
returns `text` unchanged when it fits, otherwise
`text[: max_width - len(suffix)] + suffix` (Python slice semantics: the
bound may be negative).  The default suffix `"..."` is bound inside, as
every caller in the repository uses the default. -/
def truncate_text (text : String) (max_width : Nat) : String :=
  let suffix := "..."
  if text.length ≤ max_width then text
  else ⟨pySliceTo text.data ((max_width : Int) - (suffix.length : Int))⟩ ++ suffix

/-! ## src/models/history.py -/

/-- One entry of the order history (the dict built in `History.add_order`);
`created` is the `time.strftime` timestamp, passed in by the caller of the
model since the clock is external. -/
structure HistEntry where
  order_id : String
  type : String
  osrid : String
  status : String
  created : String
deriving DecidableEq, Repr

/-- `History.add_order`: prepend the new entry (most recent first) and keep
only the first 100 entries, then persist.  The persisted list is the state
threaded through the model. -/
def add_order (e : HistEntry) (orders : List HistEntry) : List HistEntry :=
  (e :: orders).take 100

/-- A sequence of `History.add_order` calls, oldest call first. -/
def runAddOrders (orders : List HistEntry) (es : List HistEntry) : List HistEntry :=
  es.foldl (fun os e => add_order e os) orders

/-- `History.get_active_orders(osrid)` from src/models/history.py: filter
to entries whose `osrid` matches, whose status is in the closed list
`["sent", "processing", "pending"]`, and whose status is not in
`["cancelled", "cancelled_dry_run", "completed", "failed"]`. -/
def get_active_orders (osrid : String) (orders : List HistEntry) : List HistEntry :=
  orders.filter (fun o =>
    o.osrid = osrid
      ∧ o.status ∈ ["sent", "processing", "pending"]
      ∧ o.status ∉ ["cancelled", "cancelled_dry_run", "completed", "failed"])

/-! ## Key codes (curses constants and ASCII) -/

def KEY_UP : Nat := 259
def KEY_DOWN : Nat := 258
def KEY_ENTER : Nat := 343

/-! ## src/ui/menu.py: display_menu (single-select) -/

/-- Outcome of one `getch` iteration of `display_menu` in single-select
mode: either the loop continues with a new highlighted row, or the
function returns.  The Python return value is an `int` index, the raw
sentinels `-2` (refresh) / `-3` (back), or `None` (quit): modelled as
`Option Int`. -/
inductive MenuStep where
  | cont (row : Nat)
  | ret (r : Option Int)
deriving DecidableEq, Repr

/-- One iteration of the `display_menu` key-handling chain
(src/ui/menu.py, single-select: `allow_multiple=False`), over `n`
options with highlighted row `row`. -/
def menuKeyStep (n : Nat) (row : Nat) (key : Nat) : MenuStep :=
  if (key = KEY_UP ∨ key = 107) ∧ row > 0 then .cont (row - 1)
  else if (key = KEY_DOWN ∨ key = 106) ∧ row < n - 1 then .cont (row + 1)
  else if key = 32 then .cont row
  else if key = KEY_ENTER ∨ key = 10 ∨ key = 13 ∨ key = 108 then .ret (some (row : Int))
  else if 48 ≤ key ∧ key ≤ 57 then
    let num := key - 48
    if num < n then .ret (some (num : Int)) else .cont row
  else if key = 114 ∨ key = 82 then .ret (some (-2))
  else if key = 98 ∨ key = 66 then .ret (some (-3))
  else if key = 113 ∨ key = 81 then .ret none
  else .cont row

/-- Run `display_menu` (single-select) on a list of key presses; `none`
means the key list ended with the menu still waiting for input. -/
def runMenu (n : Nat) : Nat → List Nat → Option (Option Int)
  | _, [] => none
  | row, k :: ks =>
    match menuKeyStep n row k with
    | .cont r => runMenu n r ks
    | .ret v => some v

/-- The main-menu option list built in `MainController._display_main_menu`
(ORDER_TYPES plus the ancillary actions). -/
def mainMenuModes : List String :=
  ["Pick Standard", "Pick Manual", "Inventory", "Goods In", "Goods Add",
   "Transport", "View Order History", "Cancel Orders", "Configure OSR ID",
   "Configure Server Type"]

/-- How `_display_main_menu` consumes the `display_menu` result: `None`
exits the loop, any integer is used directly as a Python list index into
`modes` (an out-of-range index would raise, modelled `none`). -/
def mainMenuDispatch (res : Option Int) : Option (Option String) :=
  match res with
  | none => some none
  | some i =>
    match pyIndex mainMenuModes i with
    | some m => some (some m)
    | none => none

/-- How `_handle_database_lookup` (src/ui/form.py) consumes the result of
the container-type selection menu: a non-`None` result is used directly as
a Python list index into `options`, and the indexed option is written to
the field. -/
def dbLookupContainerApply (options : List String) (res : Option Int)
    (values : Record) : Option Record :=
  match res with
  | none => some values
  | some i =>
    match pyIndex options i with
    | some opt => some (recSet values "Container Type" opt)
    | none => none

/-! ## src/config/constants.py: transport processing modes -/

def TRANSPORT_PROCESSING_MODES : List String :=
  ["standard", "dispatch", "empty_tray", "first_hit_in_sequence"]

/-! ## src/ui/form.py: edit_form -/

/-- One interaction with the `edit_form` loop: a key press `c`, together
with the data the corresponding branch would read afterwards — `input` is
the line typed at the Enter prompt (consulted only when `c` is an Enter
key on an ordinary field), `pmodeKeys` are the key presses fed to the
processing-mode selection menu (consulted only when `c` is an Enter key
and the current field is the Processing Mode field). -/
inductive FormEv where
  | press (c : Nat) (input : String) (pmodeKeys : List Nat)
deriving DecidableEq, Repr

/-- Outcome of one `edit_form` iteration: continue browsing, return (the
accept key returns the shared Record, the back keys return no result), or
leave the modelled fragment (`stuck`: an IndexError, an unfinished nested
menu, or the external database-lookup collaborator). -/
inductive FormOut where
  | cont (row : Nat) (vals : Record)
  | ret (res : Option Record) (vals : Record)
  | stuck
deriving DecidableEq, Repr

/-- `_handle_processing_mode_selection` (src/ui/form.py): seed an empty
Processing Mode with "standard", run the selection menu, and on a
non-`None` result index `TRANSPORT_PROCESSING_MODES` with it (Python
indexing, so the raw menu sentinels reach the list as negative indices). -/
def processingModeSelection (vals : Record) (pmodeKeys : List Nat) : FormOut :=
  let vals1 :=
    if recGetD vals "Processing Mode" "standard" = "" then
      recSet vals "Processing Mode" "standard"
    else vals
  match runMenu TRANSPORT_PROCESSING_MODES.length 0 pmodeKeys with
  | none => .stuck
  | some none => .cont 0 vals1
  | some (some i) =>
    match pyIndex TRANSPORT_PROCESSING_MODES i with
    | none => .stuck
    | some m => .cont 0 (recSet vals1 "Processing Mode" m)

/-- One iteration of the `edit_form` key-handling chain (src/ui/form.py).
The database-lookup branch (keys d/D with `enable_db_lookup`) invokes the
external database collaborator and is outside the model (`stuck`). -/
def formStep (enableDb : Bool) (fields : List String) (row : Nat) (vals : Record) :
    FormEv → FormOut
  | .press c input pmodeKeys =>
    if (c = KEY_UP ∨ c = 107) ∧ row > 0 then .cont (row - 1) vals
    else if (c = KEY_DOWN ∨ c = 106) ∧ row < fields.length - 1 then .cont (row + 1) vals
    else if c = 115 ∨ c = 83 then .ret (some vals) vals
    else if c = 98 ∨ c = 66 ∨ c = 104 then .ret none vals
    else if (c = 100 ∨ c = 68) ∧ enableDb then .stuck
    else if c = KEY_ENTER ∨ c = 10 ∨ c = 13 ∨ c = 108 then
      match fields.get? row with
      | none => .stuck
      | some fieldName =>
        if fieldName = "Processing Mode" then
          match processingModeSelection vals pmodeKeys with
          | .cont _ v => .cont row v
          | o => o
        else .cont row (recSet vals fieldName (pyStrip input))
    else .cont row vals

/-- Run an `edit_form` session on a list of interactions; `none` means the
session did not end inside the modelled fragment (events exhausted or
`stuck`).  The result pairs the return value of `edit_form` with the final
state of the shared (in-place mutated) Record. -/
def runForm (enableDb : Bool) (fields : List String) :
    List FormEv → Nat → Record → Option (Option Record × Record)
  | [], _, _ => none
  | e :: es, row, vals =>
    match formStep enableDb fields row vals e with
    | .cont r v => runForm enableDb fields es r v
    | .ret res v => some (res, v)
    | .stuck => none

/-- The state transformer of a non-terminating `edit_form` iteration
(identity on terminating or stuck interactions); used to phrase that the
shared Record at session end equals the fold of the committed edits. -/
def formNavStep (enableDb : Bool) (fields : List String)
    (st : Nat × Record) (e : FormEv) : Nat × Record :=
  match formStep enableDb fields st.1 st.2 e with
  | .cont r v => (r, v)
  | _ => st

/-- The accept keys of `edit_form` (s/S). -/
def isFormAccept : FormEv → Prop
  | .press c _ _ => c = 115 ∨ c = 83

/-- The back keys of `edit_form` (b/B/h). -/
def isFormBack : FormEv → Prop
  | .press c _ _ => c = 98 ∨ c = 66 ∨ c = 104

/-! ## src/controllers/order_controller.py: the line-collection editors -/

/-- One interaction with a line-collection editor loop: a key press `c`
and, when `c` is an Enter key, the interactions of the nested `edit_form`
session on the active Record. -/
inductive PickEv where
  | press (c : Nat) (fevs : List FormEv)
deriving DecidableEq, Repr

/-- State of a line-collection editor: active index and the RecordSet. -/
structure PickState where
  idx : Nat
  lines : List Record
deriving DecidableEq, Repr

/-- Outcome of one editor iteration: continue (with an optional status
message and its kind), finish (True = send, False = back), or leave the
modelled fragment. -/
inductive EdOut where
  | next (st : PickState) (status : Option (String × String))
  | finish (send : Bool) (st : PickState)
  | stuck
deriving DecidableEq, Repr

/-- `_edit_single_line` field list: the mode's FIELD_ORDER entries present
in the line, then any extra fields of the line. -/
def fieldsForPickLine (fieldOrder : List String) (line : Record) : List String :=
  let base := fieldOrder.filter (fun f => (recGet? line f).isSome)
  base ++ (line.map Prod.fst).filter (fun f => f ∉ base)

/-- One iteration of the `edit_pick_lines` key-handling chain
(src/controllers/order_controller.py).  `dflt` stands for
`DEFAULT_ORDER_VALUES[mode][0]`, `fieldOrder` for
`FIELD_ORDER.get(mode, [])`. -/
def pickStep (fieldOrder : List String) (dflt : Record) (st : PickState) :
    PickEv → EdOut
  | .press c fevs =>
    if (c = KEY_UP ∨ c = 107) ∧ st.idx > 0 then .next ⟨st.idx - 1, st.lines⟩ none
    else if (c = KEY_DOWN ∨ c = 106) ∧ st.idx < st.lines.length - 1 then
      .next ⟨st.idx + 1, st.lines⟩ none
    else if c = 97 ∨ c = 65 then
      let newLine := (st.lines.getLast?).getD dflt
      .next ⟨st.lines.length, st.lines ++ [newLine]⟩ (some ("New line added", "success"))
    else if c = 100 ∨ c = 68 then
      if st.lines.length > 1 then
        .next ⟨st.idx - 1, st.lines.eraseIdx st.idx⟩ (some ("Line deleted", "warning"))
      else .next st (some ("Cannot delete the last line", "error"))
    else if c = KEY_ENTER ∨ c = 10 ∨ c = 13 ∨ c = 108 then
      match st.lines.get? st.idx with
      | none => .stuck
      | some line =>
        match runForm true (fieldsForPickLine fieldOrder line) fevs 0 line with
        | none => .stuck
        | some (_, shared) => .next ⟨st.idx, st.lines.set st.idx shared⟩ none
    else if c = 115 ∨ c = 83 then .finish true st
    else if c = 98 ∨ c = 66 ∨ c = 104 then .finish false st
    else .next st none

/-- Renumber the Slot Number field contiguously (the
`for i, line in enumerate(lines): line["Slot Number"] = str(i + 1)` loop
of `edit_transport_lines`), starting at position `i`. -/
def renumberSlots : Nat → List Record → List Record
  | _, [] => []
  | i, l :: ls => recSet l "Slot Number" (toString (i + 1)) :: renumberSlots (i + 1) ls

/-- `_edit_transport_slot`: nested `edit_form` on the active slot,
followed by the processing-mode fan-out to every slot when the mode
changed to a new truthy value.  In-place mutation means the shared form
Record replaces the active slot in every case. -/
def transportSlotEdit (fieldOrder : List String) (st : PickState) (slot : Record)
    (fevs : List FormEv) : EdOut :=
  match runForm true fieldOrder fevs 0 slot with
  | none => .stuck
  | some (res, shared) =>
    let lines1 := st.lines.set st.idx shared
    match res with
    | none => .next ⟨st.idx, lines1⟩ none
    | some upd =>
      match recGet? upd "Processing Mode" with
      | some s =>
        if st.lines ≠ [] ∧ s ≠ "" ∧ some s ≠ recGet? slot "Processing Mode" then
          .next ⟨st.idx, lines1.map (fun l => recSet l "Processing Mode" s)⟩
            (some ("Processing mode " ++ s ++ " applied to all slots", "success"))
        else .next ⟨st.idx, lines1⟩ none
      | none => .next ⟨st.idx, lines1⟩ none

/-- One iteration of the `edit_transport_lines` key-handling chain.  Note
the delete branch requires a non-empty line list (`and lines`), and both
delete and add keep the Slot Number contiguous. -/
def transportStep (fieldOrder : List String) (dflt : Record) (st : PickState) :
    PickEv → EdOut
  | .press c fevs =>
    if (c = KEY_UP ∨ c = 107) ∧ st.idx > 0 then .next ⟨st.idx - 1, st.lines⟩ none
    else if (c = KEY_DOWN ∨ c = 106) ∧ st.idx < st.lines.length - 1 then
      .next ⟨st.idx + 1, st.lines⟩ none
    else if c = 97 ∨ c = 65 then
      let base := (st.lines.getLast?).getD dflt
      let newSlot := recSet base "Slot Number" (toString (st.lines.length + 1))
      .next ⟨st.lines.length, st.lines ++ [newSlot]⟩ (some ("New slot added", "success"))
    else if (c = 100 ∨ c = 68) ∧ st.lines ≠ [] then
      if st.lines.length > 1 then
        let ls := renumberSlots 0 (st.lines.eraseIdx st.idx)
        .next ⟨if st.idx ≥ ls.length then ls.length - 1 else st.idx, ls⟩
          (some ("Slot deleted", "warning"))
      else .next st (some ("Cannot delete the last slot", "error"))
    else if c = KEY_ENTER ∨ c = 10 ∨ c = 13 ∨ c = 108 then
      match st.lines.get? st.idx with
      | none => .stuck
      | some slot => transportSlotEdit fieldOrder st slot fevs
    else if c = 115 ∨ c = 83 then .finish true st
    else if c = 98 ∨ c = 66 ∨ c = 104 then .finish false st
    else .next st none

/-- Result of running a line-collection editor on a list of interactions:
finished with a send/back flag, still browsing, or outside the modelled
fragment. -/
inductive EdRun where
  | finished (send : Bool) (st : PickState)
  | inProgress (st : PickState)
  | stuck
deriving DecidableEq, Repr

/-- Run an editor given its step function. -/
def runEditor (step : PickState → PickEv → EdOut) :
    List PickEv → PickState → EdRun
  | [], st => .inProgress st
  | e :: es, st =>
    match step st e with
    | .next st1 _ => runEditor step es st1
    | .finish b st1 => .finished b st1
    | .stuck => .stuck

/-- `edit_pick_lines` run. -/
def runPickEditor (fieldOrder : List String) (dflt : Record) :
    List PickEv → PickState → EdRun :=
  runEditor (pickStep fieldOrder dflt)

/-- `edit_transport_lines` run. -/
def runTransportEditor (fieldOrder : List String) (dflt : Record) :
    List PickEv → PickState → EdRun :=
  runEditor (transportStep fieldOrder dflt)

/-- The RecordSet of every state reachable in an editor run has at least
one Record. -/
def edRunLenOK : EdRun → Prop
  | .finished _ st => 1 ≤ st.lines.length
  | .inProgress st => 1 ≤ st.lines.length
  | .stuck => True

/-- The sequencing field holds 1..N in Record order. -/
def slotsContiguous (lines : List Record) : Prop :=
  ∀ i (h : i < lines.length),
    recGet? (lines.get ⟨i, h⟩) "Slot Number" = some (toString (i + 1))

/-! ## src/models/xml_generator.py (pick-standard path) and
src/models/order_sender.py -/

/-- Looking a template key up in a Record; a missing key is the KeyError
that `OrderXML.generate` converts to an OrderValidationError (Python
renders the key quoted inside the message). -/
def fmtKey (v : Record) (k : String) : Except String String :=
  match recGet? v k with
  | some s => .ok s
  | none => .error ("Missing required field in order data: " ++ k)

/-- `LINE_TEMPLATES[PICK_STANDARD].format(**values)` (src/config/defaults.py),
with the placeholders spliced in template order. -/
def fmtPickLineStd (v : Record) : Except String String := do
  let q ← fmtKey v "Quantity"
  let pc ← fmtKey v "Product Code"
  let pn ← fmtKey v "Product Name"
  .ok ("\n            <pick_order_line quantity=\"" ++ q
    ++ "\" target_slot=\"1\">\n                <product product_code=\"" ++ pc
    ++ "\" name=\"" ++ pn
    ++ "\" returned=\"false\"/>\n            </pick_order_line>\n        ")

/-- The `lines_xml` accumulation loop of `OrderXML._generate_pick_order`. -/
def pickLinesXml : List Record → Except String String
  | [] => .ok ""
  | v :: vs => do
    let x ← fmtPickLineStd v
    let rest ← pickLinesXml vs
    .ok (x ++ rest)

/-- `OrderXML._generate_pick_order` for the Pick Standard mode:
format every line, then `XML_TEMPLATES[PICK_STANDARD].format(lines=...,
**values_list[0]).strip()`.  An empty list raises an
OrderValidationError. -/
def generatePickStandard : List Record → Except String String
  | [] => .error "Pick orders require a list of values"
  | v0 :: vs => do
    let linesXml ← pickLinesXml (v0 :: vs)
    let nm ← fmtKey v0 "name"
    let onum ← fmtKey v0 "Order Number"
    let cont ← fmtKey v0 "Container / Tray Number"
    .ok (pyStrip ("\n    <host2osr>\n        <pick_order order_number=\"" ++ nm
      ++ "-pick-" ++ onum ++ "\" container_number=\"" ++ cont
      ++ "\" processing_mode=\"standard\">\n            " ++ linesXml
      ++ "\n        </pick_order>\n    </host2osr>\n    "))

/-- The match attempt of the regex `order_number="([^"]+)"` at the head of
the character list: the literal prefix, then a maximal non-empty run of
non-quote characters, closed by a quote. -/
def matchOrderNumberAt (l : List Char) : Option (List Char) :=
  let pat := "order_number=\"".data
  if pat.isPrefixOf l then
    let tail := l.drop pat.length
    let grp := tail.takeWhile (fun c => c ≠ '"')
    if grp ≠ [] ∧ (tail.drop grp.length).head? = some '"' then some grp else none
  else none

/-- `re.search` for the pattern above: leftmost match. -/
def searchOrderNumber : List Char → Option (List Char)
  | [] => none
  | c :: rest =>
    match matchOrderNumberAt (c :: rest) with
    | some g => some g
    | none => searchOrderNumber rest

/-- `extract_order_id_from_xml` (src/models/order_sender.py). -/
def extract_order_id_from_xml (xml : String) : String :=
  match searchOrderNumber xml.data with
  | some g => ⟨g⟩
  | none => "unknown"

/-- `get_order_type_from_xml` (src/models/order_sender.py). -/
def get_order_type_from_xml (xml : String) : String :=
  if pyIn "<transport_order " xml || pyIn "<transport_order>" xml then "Transport"
  else if pyIn "<pick_order " xml || pyIn "<pick_order>" xml then
    if pyIn "container_number=" xml then "Pick Standard" else "Pick Manual"
  else if pyIn "<goods_in_order " xml && pyIn "processing_mode=\"renewal\"" xml then
    "Goods Add"
  else if pyIn "<goods_in_order " xml || pyIn "<goods_in_order>" xml then "Goods In"
  else if pyIn "<inventory_order " xml || pyIn "<inventory_order>" xml then "Inventory"
  else "unknown"

/-- `OrderSender.send` (src/models/order_sender.py): empty XML raises an
OrderValidationError; dry-run returns without transmitting; otherwise the
CORBA transmission either succeeds or raises, and any exception is wrapped
with the `Failed to send order:` prefix.  `corbaAvailable` models the
import-time CORBA_AVAILABLE flag and `corbaResult` the external CORBA
call. -/
def senderSend (dryRun corbaAvailable : Bool) (corbaResult : Except String Unit)
    (xml : String) : Except String Unit :=
  if pyStrip xml = "" then .error "Order XML cannot be empty"
  else if dryRun then .ok ()
  else if ¬ corbaAvailable then .error "CORBA libraries not available"
  else
    match corbaResult with
    | .ok _ => .ok ()
    | .error d => .error ("Failed to send order: " ++ d)

/-! ## src/models/config.py and src/controllers/main_controller.py -/

/-- A configuration value (the JSON values held by the config dict). -/
inductive ConfigVal where
  | str (s : String)
  | recs (rs : List Record)
  | record (r : Record)
  | flag (b : Bool)
deriving DecidableEq, Repr

/-- The configuration dict. -/
abbrev Config := List (String × ConfigVal)

def cfgGet? (c : Config) (k : String) : Option ConfigVal :=
  match c.find? (fun p => p.1 = k) with
  | some p => some p.2
  | none => none

def cfgSet (c : Config) (k : String) (v : ConfigVal) : Config :=
  if c.any (fun p => p.1 = k) then
    c.map (fun p => if p.1 = k then (k, v) else p)
  else
    c ++ [(k, v)]

/-- `config.get(k, dflt)` for keys that hold strings (all uses below read
keys whose stored values are strings). -/
def cfgGetStrD (c : Config) (k : String) (dflt : String) : String :=
  match cfgGet? c k with
  | some (.str s) => s
  | _ => dflt

/-- `Config.resolve_osr`: `config.get("osr_id", os.environ.get("OSR_ID", ""))`;
the environment value is a parameter. -/
def resolve_osr (c : Config) (envOsr : String) : String :=
  cfgGetStrD c "osr_id" envOsr

/-- `_show_xml_confirmation_dialog` key loop: the first y/Y resolves true,
the first n/N/Escape resolves false, every other key is skipped; `none`
means the key list ended with the dialog still waiting. -/
def confirmOutcome : List Nat → Option Bool
  | [] => none
  | k :: ks =>
    if k = 121 ∨ k = 89 then some true
    else if k = 110 ∨ k = 78 ∨ k = 27 then some false
    else confirmOutcome ks

/-- Observable result of an order-creation flow: the configuration saved
to the store during the flow (`none` when nothing was saved), the history
after the flow, the dialog/preview messages shown (the model keeps the
leading line of each), the built payload if one was generated, and
whether the test-server sandbox sub-flow was offered. -/
structure FlowRes where
  store : Option Config
  history : List HistEntry
  dialogs : List String
  payload : Option String
  sandbox : Bool
deriving DecidableEq, Repr

/-- `MainController._send_order`: resolve the OSR id (missing id shows a
configuration-error dialog and returns), send, and on success record a
history entry whose status is `dry_run` under the dry-run flag and `sent`
otherwise; any send exception is caught, shown as an error dialog with
the detail, and the flow returns with no history entry.  Returns the new
history, the dialogs shown, and the sandbox-offer flag. -/
def sendOrderFlow (cfg : Config) (envOsr : String) (dryRun corbaAvailable : Bool)
    (corbaResult : Except String Unit) (now : String) (xml : String)
    (hist : List HistEntry) : List HistEntry × List String × Bool :=
  let osrid := resolve_osr cfg envOsr
  if osrid = "" then (hist, ["OSR_ID is not configured!"], false)
  else
    match senderSend dryRun corbaAvailable corbaResult xml with
    | .error e => (hist, ["Error sending order: " ++ e], false)
    | .ok _ =>
      let entry : HistEntry :=
        { order_id := extract_order_id_from_xml xml
          type := get_order_type_from_xml xml
          osrid := osrid
          status := if dryRun then "dry_run" else "sent"
          created := now }
      let hist1 := add_order entry hist
      let msg := if dryRun then "DRY RUN: Order would be sent successfully!"
                 else "Order sent successfully!"
      (hist1, [msg], cfgGetStrD cfg "server_type" "Live" = "Test")

/-- `MainController._handle_order_creation` for the Pick Standard /
Pick Manual branch, composed with `_confirm_and_send_order` and
`_send_order`: set the operator name into the stored records, run the line
editor on a copy, and when the editor reports send: persist the edited
lines, build the payload from the order values, validate it, ask for
confirmation, and dispatch on yes.  `none` models a flow that did not
complete inside the modelled fragment (events exhausted, editor stuck, or
an uncaught payload-builder exception). -/
def handleOrderCreationPick (mode : String) (fieldOrder : List String)
    (dflt : Record) (cfg0 : Config) (hist : List HistEntry)
    (editorEvs : List PickEv) (confirmKeys : List Nat) (envOsr : String)
    (dryRun corbaAvailable : Bool) (corbaResult : Except String Unit)
    (now : String) : Option FlowRes :=
  match cfgGet? cfg0 mode with
  | some (.recs values0) =>
    let nm := cfgGetStrD cfg0 "name" "SRC"
    let values := values0.map (fun v => recSet v "name" nm)
    let cfg1 := cfgSet cfg0 mode (.recs values)
    match runPickEditor fieldOrder dflt editorEvs ⟨0, values⟩ with
    | .finished sendNow stF =>
      if sendNow then
        let cfg2 := cfgSet cfg1 mode (.recs stF.lines)
        match generatePickStandard values with
        | .error _ => none
        | .ok xml =>
          if pyStrip xml = "" then
            some ⟨some cfg2, hist, ["Error: Generated XML is empty!"], some xml, false⟩
          else
            match confirmOutcome confirmKeys with
            | none => none
            | some false => some ⟨some cfg2, hist, [], some xml, false⟩
            | some true =>
              match sendOrderFlow cfg2 envOsr dryRun corbaAvailable corbaResult now xml hist with
              | (h1, ds, sb) => some ⟨some cfg2, h1, ds, some xml, sb⟩
      else some ⟨none, hist, [], none, false⟩
    | _ => none
  | _ => none

/-! # Theorems -/

/-! ## C3: truncate_text -/

/-- C3 (counterexample): the claim `length (truncate text maxWidth) ≤
maxWidth` fails on the code: with `maxWidth = 2` (smaller than the
ellipsis) the Python slice bound `2 - 3 = -1` counts from the end, so
`truncate_text "abcd" 2` is `"abc..."` of length 6, not at most 2. -/
theorem truncate_text_exceeds_max_width :
    truncate_text "abcd" 2 = "abc..." ∧ ¬ (truncate_text "abcd" 2).length ≤ 2 := by
  constructor
  · rfl
  · decide

/-- C3 (amended): whenever `maxWidth` is at least the ellipsis length 3,
`truncate_text text maxWidth` has length at most `maxWidth`; the text is
returned unchanged (no ellipsis) exactly when it already fits, and when
truncation occurs the result is a prefix of length `maxWidth - 3` followed
by the ellipsis. -/
theorem truncate_text_fits (text : String) (max_width : Nat) (h3 : 3 ≤ max_width) :
    (truncate_text text max_width).length ≤ max_width ∧
    (text.length ≤ max_width → truncate_text text max_width = text) ∧
    (max_width < text.length →
      ∃ pre : String, truncate_text text max_width = pre ++ "..." ∧
        pre.length = max_width - 3) := by
  unfold truncate_text
  by_cases hle : text.length ≤ max_width
  · rw [if_pos hle]
    exact ⟨hle, fun _ => rfl, fun hc => absurd hle (Nat.not_le.mpr hc)⟩
  · rw [if_neg hle]
    have hlen : text.length > max_width := Nat.lt_of_not_le hle
    have hsuf : ("..." : String).length = 3 := rfl
    rw [hsuf]
    have hnn : (0 : Int) ≤ (max_width : Int) - ((3 : Nat) : Int) := by
      omega
    have hslice : pySliceTo text.data ((max_width : Int) - ((3 : Nat) : Int))
        = text.data.take (max_width - 3) := by
      unfold pySliceTo
      rw [if_pos hnn]
      congr 1
      omega
    have htake : (text.data.take (max_width - 3)).length = max_width - 3 := by
      rw [List.length_take]
      have hdata : text.length = text.data.length := rfl
      omega
    refine ⟨?_, ?_, ?_⟩
    · show (String.mk (pySliceTo text.data _) ++ "...").length ≤ max_width
      rw [String.length_append, hsuf]
      show (pySliceTo text.data _).length + 3 ≤ max_width
      rw [hslice]
      omega
    · intro hc; exact absurd hc hle
    · intro _
      refine ⟨⟨text.data.take (max_width - 3)⟩, ?_, ?_⟩
      · rw [hslice]
      · show (text.data.take (max_width - 3)).length = max_width - 3
        exact htake

/-- C3 (witness for the amended theorem). -/
theorem truncate_text_fits_witness :
    3 ≤ 5 ∧ ((truncate_text "abcdefgh" 5).length ≤ 5 ∧
      ("abcdefgh".length ≤ 5 → truncate_text "abcdefgh" 5 = "abcdefgh") ∧
      (5 < "abcdefgh".length →
        ∃ pre : String, truncate_text "abcdefgh" 5 = pre ++ "..." ∧ pre.length = 5 - 3)) :=
  ⟨by decide, truncate_text_fits "abcdefgh" 5 (by decide)⟩

/-! ## C9: History.get_active_orders -/

/-- A history entry recorded by a dry-run dispatch. -/
def dryRunEntry : HistEntry :=
  { order_id := "src-pick-1", type := "Pick Standard", osrid := "OSR1"
    status := "dry_run", created := "2026-10-12 00:00:00" }

/-- C9 (counterexample): the claim says any entry whose status lies
outside cancelled/completed/failed is returned as active; the dry-run
entry has a matching context id and a status outside the excluded ones,
yet `get_active_orders` returns the empty list, because the code also
requires membership in the closed whitelist sent/processing/pending. -/
theorem get_active_orders_drops_dry_run :
    dryRunEntry.osrid = "OSR1" ∧
    dryRunEntry.status ∉ ["cancelled", "cancelled_dry_run", "completed", "failed"] ∧
    get_active_orders "OSR1" [dryRunEntry] = [] := by
  refine ⟨rfl, by decide, rfl⟩

/-- C9 (amended): `get_active_orders` returns exactly the entries whose
context id matches and whose status is in the closed whitelist
sent/processing/pending; the not-in-excluded conjunct of the code is
redundant, and statuses outside the whitelist (such as dry_run) are never
returned. -/
theorem get_active_orders_closed_whitelist (osrid : String) (orders : List HistEntry) :
    get_active_orders osrid orders =
      orders.filter (fun o =>
        o.osrid = osrid ∧ o.status ∈ ["sent", "processing", "pending"]) := by
  unfold get_active_orders
  apply List.filter_congr
  intro o _
  apply decide_eq_decide.mpr
  constructor
  · rintro ⟨h1, h2, _⟩
    exact ⟨h1, h2⟩
  · rintro ⟨h1, h2⟩
    refine ⟨h1, h2, ?_⟩
    simp only [List.mem_cons, List.not_mem_nil, or_false] at h2 ⊢
    rcases h2 with h | h | h <;> rw [h] <;> decide

/-! ## C10: History.add_order -/

/-- C10: every `add_order` prepends the new entry and truncates to the
first 100, so after any non-empty sequence of calls the stored history is
the new entries (most recent first) in front of the old ones, cut to 100:
at most 100 records, newest first, oldest dropped. -/
theorem add_order_newest_first_bounded (orders : List HistEntry)
    (es : List HistEntry) (h : es ≠ []) :
    runAddOrders orders es = (es.reverse ++ orders).take 100 ∧
    (runAddOrders orders es).length ≤ 100 := by
  suffices hmain : ∀ es₀ orders₀, es₀ ≠ [] →
      runAddOrders orders₀ es₀ = (es₀.reverse ++ orders₀).take 100 by
    refine ⟨hmain es orders h, ?_⟩
    rw [hmain es orders h, List.length_take]
    omega
  intro es₀
  induction es₀ with
  | nil => intro _ hc; exact absurd rfl hc
  | cons e es ih =>
    intro orders₀ _
    by_cases hes : es = []
    · subst hes
      simp [runAddOrders, add_order]
    · have step : runAddOrders orders₀ (e :: es) = runAddOrders (add_order e orders₀) es := rfl
      rw [step, ih (add_order e orders₀) hes]
      unfold add_order
      rw [List.reverse_cons, List.append_assoc]
      have flatten : ∀ (a b : List HistEntry),
          (a ++ b.take 100).take 100 = (a ++ b).take 100 := by
        intro a b
        rw [List.take_append_eq_append_take, List.take_append_eq_append_take,
          List.take_take]
        have hmin : min (100 - a.length) 100 = 100 - a.length :=
          Nat.min_eq_left (Nat.sub_le 100 a.length)
        rw [hmin]
      simpa using flatten es.reverse (e :: orders₀)

/-- C10 (witness). -/
theorem add_order_newest_first_bounded_witness :
    [dryRunEntry] ≠ ([] : List HistEntry) ∧
    (runAddOrders [] [dryRunEntry] = ([dryRunEntry].reverse ++ []).take 100 ∧
      (runAddOrders [] [dryRunEntry]).length ≤ 100) :=
  ⟨by decide, add_order_newest_first_bounded [] [dryRunEntry] (by decide)⟩

/-! ## Helper lemmas for the editors -/

/-- Looking up the key just written by `recSet` yields the written value
(map branch). -/
lemma recGet?_map_set (r : Record) (k v : String)
    (h : r.any (fun p => p.1 = k) = true) :
    recGet? (r.map (fun p => if p.1 = k then (k, v) else p)) k = some v := by
  induction r with
  | nil => simp at h
  | cons p ps ih =>
    by_cases hp : p.1 = k
    · simp [recGet?, hp]
    · have ht : ps.any (fun p => p.1 = k) = true := by
        simp only [List.any_cons, Bool.or_eq_true] at h
        rcases h with hh | hh
        · exact absurd (by simpa using hh) hp
        · exact hh
      simp only [List.map_cons, if_neg hp]
      unfold recGet? at ih ⊢
      rw [List.find?_cons_of_neg _ (by simpa using hp)]
      exact ih ht

/-- Looking up the key just written by `recSet` yields the written value
(append branch). -/
lemma recGet?_append_set (r : Record) (k v : String)
    (h : r.any (fun p => p.1 = k) = false) :
    recGet? (r ++ [(k, v)]) k = some v := by
  induction r with
  | nil => simp [recGet?]
  | cons p ps ih =>
    have hp : ¬ p.1 = k := by
      simp only [List.any_cons, Bool.or_eq_false_iff] at h
      simpa using h.1
    have ht : ps.any (fun p => p.1 = k) = false := by
      simp only [List.any_cons, Bool.or_eq_false_iff] at h
      exact h.2
    unfold recGet? at ih ⊢
    rw [List.cons_append, List.find?_cons_of_neg _ (by simpa using hp)]
    exact ih ht

/-- Looking up the key just written by `recSet` yields the written value. -/
lemma recGet?_recSet_self (r : Record) (k v : String) :
    recGet? (recSet r k v) k = some v := by
  unfold recSet
  split_ifs with h
  · exact recGet?_map_set r k v h
  · exact recGet?_append_set r k v ((Bool.not_eq_true _) ▸ h)

/-- Element of an append, left part. -/
lemma get_append_left_record (l₁ l₂ : List Record) (i : Nat) (h : i < l₁.length)
    (h2 : i < (l₁ ++ l₂).length) :
    (l₁ ++ l₂).get ⟨i, h2⟩ = l₁.get ⟨i, h⟩ := by
  induction l₁ generalizing i with
  | nil => simp at h
  | cons a as ih =>
    cases i with
    | zero => rfl
    | succ n => exact ih n (Nat.lt_of_succ_lt_succ h) (by simpa using h2)

/-- Element of an append, the appended singleton. -/
lemma get_append_last_record (l : List Record) (x : Record)
    (h : l.length < (l ++ [x]).length) :
    (l ++ [x]).get ⟨l.length, h⟩ = x := by
  induction l with
  | nil => rfl
  | cons a as ih => exact ih (by simp)

/-- `renumberSlots` keeps the length. -/
lemma length_renumberSlots : ∀ (i : Nat) (ls : List Record),
    (renumberSlots i ls).length = ls.length
  | _, [] => rfl
  | i, _ :: ls => by
    simp only [renumberSlots, List.length_cons]
    rw [length_renumberSlots (i + 1) ls]

/-- Every record of a renumbered list holds its contiguous slot number. -/
lemma renumberSlots_get (ls : List Record) : ∀ (j i : Nat)
    (h : i < (renumberSlots j ls).length),
    recGet? ((renumberSlots j ls).get ⟨i, h⟩) "Slot Number"
      = some (toString (j + i + 1)) := by
  induction ls with
  | nil => intro j i h; simp [renumberSlots] at h
  | cons l ls ih =>
    intro j i h
    cases i with
    | zero =>
      simpa [renumberSlots] using recGet?_recSet_self l "Slot Number" (toString (j + 1))
    | succ n =>
      have hn : n < (renumberSlots (j + 1) ls).length := by
        have := h
        simp only [renumberSlots, List.length_cons] at this
        omega
      have hval := ih (j + 1) n hn
      have harg : j + 1 + n + 1 = j + (n + 1) + 1 := by omega
      rw [harg] at hval
      simpa [renumberSlots] using hval

/-- Erasing one element of a list with at least two keeps it non-empty. -/
lemma one_le_length_eraseIdx (l : List Record) (i : Nat) (h : 2 ≤ l.length) :
    1 ≤ (l.eraseIdx i).length := by
  induction l generalizing i with
  | nil => simp at h
  | cons a as ih =>
    cases i with
    | zero =>
      simp only [List.eraseIdx]
      simp only [List.length_cons] at h
      omega
    | succ n => simp [List.eraseIdx]

/-! ## C4: menu refresh/back signals -/

/-- C4 (counterexample): refresh and back are NOT a tagged result type but
the raw sentinels -2 and -3, and callers do interpret them as selections:
in a two-option container-type lookup menu, pressing r yields -2 and the
caller writes option 0 to the field via Python negative indexing, and at
the ten-entry main menu the same -2 dispatches the Configure OSR ID
action. -/
theorem menu_refresh_interpreted_as_selection :
    runMenu 2 0 [114] = some (some (-2)) ∧
    dbLookupContainerApply ["typeA", "typeB"] (some (-2)) []
      = some [("Container Type", "typeA")] ∧
    mainMenuDispatch (some (-2)) = some (some "Configure OSR ID") := by
  refine ⟨rfl, rfl, rfl⟩

/-- C4 (amended): `display_menu` signals refresh and back with the raw
integer sentinels -2 and -3 (not a tagged type); every value it returns is
-2, -3, or a valid index in `[0, n)`, so the sentinels never *equal* a
valid Chosen index, but callers that index Python lists with the raw
result interpret them as selections through negative indexing. -/
theorem display_menu_sentinel_classification (n row : Nat) (keys : List Nat)
    (v : Int) (hn : 1 ≤ n) (hrow : row < n)
    (h : runMenu n row keys = some (some v)) :
    v = -2 ∨ v = -3 ∨ (0 ≤ v ∧ v < (n : Int)) := by
  induction keys generalizing row with
  | nil => exact absurd h (by simp [runMenu])
  | cons k ks ih =>
    rw [runMenu] at h
    revert h
    unfold menuKeyStep
    split_ifs with h1 h2 h3 h4 h5 h6 h7 h8 <;> intro h
    · exact ih (row - 1) (by omega) h
    · exact ih (row + 1) (by omega) h
    · exact ih row hrow h
    · have hv : v = (row : Int) := by
        simpa using h.symm
      right; right
      constructor <;> omega
    · by_cases hnum : k - 48 < n
      · rw [if_pos hnum] at h
        have hv : v = ((k - 48 : Nat) : Int) := by
          simpa using h.symm
        right; right
        constructor <;> omega
      · rw [if_neg hnum] at h
        exact ih row hrow h
    · left
      simpa using h.symm
    · right; left
      simpa using h.symm
    · exact absurd h (by simp)
    · exact ih row hrow h

/-- C4 (witness for the amended theorem): pressing Enter at the initial
row of a three-option menu resolves Chosen 0, which the classification
places in `[0, 3)`. -/
theorem display_menu_sentinel_classification_witness :
    1 ≤ 3 ∧ 0 < 3 ∧ runMenu 3 0 [10] = some (some 0) ∧
    ((0 : Int) = -2 ∨ (0 : Int) = -3 ∨ ((0 : Int) ≤ 0 ∧ (0 : Int) < (3 : Nat))) :=
  ⟨by decide, by decide, by decide,
    display_menu_sentinel_classification 3 0 [10] 0 (by decide) (by decide) (by decide)⟩

/-! ## C5: edit_form accept and back -/

/-- `processingModeSelection` never ends the form session: it either
continues with a new shared Record or leaves the modelled fragment. -/
lemma processingModeSelection_shape (vals : Record) (pk : List Nat) :
    processingModeSelection vals pk = .stuck ∨
    ∃ v1, processingModeSelection vals pk = .cont 0 v1 := by
  unfold processingModeSelection
  split <;> split
  · left; rfl
  · right; exact ⟨_, rfl⟩
  · split
    · left; rfl
    · right; exact ⟨_, rfl⟩
  · left; rfl
  · right; exact ⟨_, rfl⟩
  · split
    · left; rfl
    · right; exact ⟨_, rfl⟩

/-- A returning `formStep` leaves the shared Record untouched, and it is
the accept keys that return the Record and the back keys that return
no-result. -/
lemma formStep_ret_inv (enableDb : Bool) (fields : List String) (row : Nat)
    (vals : Record) (e : FormEv) (res : Option Record) (v : Record)
    (h : formStep enableDb fields row vals e = .ret res v) :
    v = vals ∧ ((isFormAccept e ∧ res = some vals) ∨ (isFormBack e ∧ res = none)) := by
  obtain ⟨c, input, pk⟩ := e
  simp only [formStep] at h
  split_ifs at h with h1 h2 h3 h4 h5 h6
  · injection h with hres hv
    exact ⟨hv.symm, Or.inl ⟨h3, hres.symm⟩⟩
  · injection h with hres hv
    exact ⟨hv.symm, Or.inr ⟨h4, hres.symm⟩⟩
  · cases hget : fields.get? row with
    | none => rw [hget] at h; simp at h
    | some fieldName =>
      rw [hget] at h
      dsimp only at h
      by_cases hpm : fieldName = "Processing Mode"
      · rw [if_pos hpm] at h
        rcases processingModeSelection_shape vals pk with hs | ⟨v1, hs⟩ <;>
          rw [hs] at h <;> simp at h
      · rw [if_neg hpm] at h
        simp at h

/-- C5: if an `edit_form` session over a shared Record ends, it ends at
some interaction `e`; the shared Record at that point is exactly the fold
of the committed in-place edits of the preceding interactions, the accept
keys (s/S) return precisely that committed state, and the back keys
(b/B/h) return no result while the shared Record still holds all the
committed edits. -/
theorem edit_form_accept_back (enableDb : Bool) (fields : List String)
    (evs : List FormEv) (row : Nat) (vals : Record) (res : Option Record)
    (shared : Record)
    (h : runForm enableDb fields evs row vals = some (res, shared)) :
    ∃ k e, evs.get? k = some e ∧
      shared = (List.foldl (formNavStep enableDb fields) (row, vals) (evs.take k)).2 ∧
      ((isFormAccept e ∧ res = some shared) ∨ (isFormBack e ∧ res = none)) := by
  induction evs generalizing row vals with
  | nil => exact absurd h (by simp [runForm])
  | cons e es ih =>
    rw [runForm] at h
    cases hstep : formStep enableDb fields row vals e with
    | cont r v =>
      rw [hstep] at h
      obtain ⟨k, e1, hget, hfold, hca⟩ := ih r v h
      have hnav : formNavStep enableDb fields (row, vals) e = (r, v) := by
        simp [formNavStep, hstep]
      refine ⟨k + 1, e1, by simpa using hget, ?_, hca⟩
      simpa [List.take_succ_cons, List.foldl_cons, hnav] using hfold
    | ret res1 v =>
      rw [hstep] at h
      injection h with hpair
      have hres : res1 = res := congrArg Prod.fst hpair
      have hv : v = shared := congrArg Prod.snd hpair
      obtain ⟨hvv, hca⟩ := formStep_ret_inv enableDb fields row vals e res1 v hstep
      refine ⟨0, e, rfl, by simpa using (hv.symm.trans hvv), ?_⟩
      rcases hca with ⟨ha, hr⟩ | ⟨hb, hr⟩
      · exact Or.inl ⟨ha, by rw [← hres, hr, ← hvv, hv]⟩
      · exact Or.inr ⟨hb, by rw [← hres, hr]⟩
    | stuck =>
      rw [hstep] at h
      cases h

/-- C5 (witness): a session that commits Quantity := 5 and accepts
returns the committed Record. -/
theorem edit_form_accept_back_witness :
    runForm false ["Quantity"] [.press 10 "5" [], .press 115 "" []] 0
        [("Quantity", "10")]
      = some (some [("Quantity", "5")], [("Quantity", "5")]) ∧
    (∃ k e,
      ([FormEv.press 10 "5" [], FormEv.press 115 "" []].get? k = some e) ∧
      [("Quantity", "5")]
        = (List.foldl (formNavStep false ["Quantity"]) (0, [("Quantity", "10")])
            ([FormEv.press 10 "5" [], FormEv.press 115 "" []].take k)).2 ∧
      ((isFormAccept e ∧ (some [("Quantity", "5")] : Option Record)
          = some [("Quantity", "5")]) ∨
        (isFormBack e ∧ (some [("Quantity", "5")] : Option Record) = none))) :=
  ⟨by decide,
    edit_form_accept_back false ["Quantity"]
      [.press 10 "5" [], .press 115 "" []] 0 [("Quantity", "10")]
      (some [("Quantity", "5")]) [("Quantity", "5")] (by decide)⟩

/-! ## C1: the RecordSet never empties -/

/-- The state carried by an editor-step outcome keeps at least one
Record. -/
def edOutLenOK : EdOut → Prop
  | .next st _ => 1 ≤ st.lines.length
  | .finish _ st => 1 ≤ st.lines.length
  | .stuck => True

/-- Every `edit_pick_lines` iteration preserves a non-empty line list. -/
lemma pickStep_lenOK (fo : List String) (dflt : Record) (st : PickState)
    (ev : PickEv) (h : 1 ≤ st.lines.length) :
    edOutLenOK (pickStep fo dflt st ev) := by
  obtain ⟨c, fevs⟩ := ev
  simp only [pickStep]
  split_ifs with h1 h2 h3 h4 h5 h6 h7 h8
  · exact h
  · exact h
  · simp only [edOutLenOK, List.length_append]
    omega
  · simp only [edOutLenOK]
    exact one_le_length_eraseIdx st.lines st.idx (by omega)
  · exact h
  · cases hget : st.lines.get? st.idx with
    | none => simp only [hget]; trivial
    | some line =>
      simp only [hget]
      cases hrun : runForm true (fieldsForPickLine fo line) fevs 0 line with
      | none => simp only [hrun]; trivial
      | some pr =>
        obtain ⟨res, shared⟩ := pr
        simp only [hrun, edOutLenOK, List.length_set]
        exact h
  · exact h
  · exact h
  · exact h

/-- `_edit_transport_slot` preserves a non-empty line list. -/
lemma transportSlotEdit_lenOK (fo : List String) (st : PickState) (slot : Record)
    (fevs : List FormEv) (h : 1 ≤ st.lines.length) :
    edOutLenOK (transportSlotEdit fo st slot fevs) := by
  unfold transportSlotEdit
  cases hrun : runForm true fo fevs 0 slot with
  | none => simp only [hrun]; trivial
  | some pr =>
    obtain ⟨res, shared⟩ := pr
    simp only [hrun]
    cases res with
    | none =>
      simp only [edOutLenOK, List.length_set]
      exact h
    | some upd =>
      cases hpm : recGet? upd "Processing Mode" with
      | none =>
        simp only [hpm, edOutLenOK, List.length_set]
        exact h
      | some s =>
        simp only [hpm]
        split_ifs with hc
        · simp only [edOutLenOK, List.length_map, List.length_set]
          exact h
        · simp only [edOutLenOK, List.length_set]
          exact h

/-- Every `edit_transport_lines` iteration preserves a non-empty line
list. -/
lemma transportStep_lenOK (fo : List String) (dflt : Record) (st : PickState)
    (ev : PickEv) (h : 1 ≤ st.lines.length) :
    edOutLenOK (transportStep fo dflt st ev) := by
  obtain ⟨c, fevs⟩ := ev
  simp only [transportStep]
  split_ifs
  all_goals first
    | exact h
    | (simp only [edOutLenOK, List.length_append]; omega)
    | (simp only [edOutLenOK, length_renumberSlots]
       exact one_le_length_eraseIdx st.lines st.idx (by omega))
    | (cases hget : st.lines.get? st.idx with
       | none => simp only [hget]; trivial
       | some slot =>
         simp only [hget]
         exact transportSlotEdit_lenOK fo st slot fevs h)

/-- Running an editor whose every step preserves non-emptiness keeps the
RecordSet non-empty at every reachable state. -/
lemma runEditor_lenOK (step : PickState → PickEv → EdOut)
    (hstep : ∀ st ev, 1 ≤ st.lines.length → edOutLenOK (step st ev))
    (evs : List PickEv) (st : PickState) (h : 1 ≤ st.lines.length) :
    edRunLenOK (runEditor step evs st) := by
  induction evs generalizing st with
  | nil => exact h
  | cons e es ih =>
    rw [runEditor]
    cases hs : step st e with
    | next st1 m =>
      have := hstep st e h
      rw [hs] at this
      exact ih st1 this
    | finish b st1 =>
      have := hstep st e h
      rw [hs] at this
      exact this
    | stuck => trivial

/-- C1: starting from a non-empty RecordSet, every state reached through
any sequence of editor interactions (in either the pick or the transport
line editor) still has at least one Record, and a delete issued while
exactly one Record remains leaves the set unchanged and shows the
cannot-delete warning. -/
theorem recordset_never_empties (fo : List String) (dflt : Record)
    (evs : List PickEv) (st : PickState) (fevs : List FormEv)
    (h1 : 1 ≤ st.lines.length) :
    edRunLenOK (runPickEditor fo dflt evs st) ∧
    edRunLenOK (runTransportEditor fo dflt evs st) ∧
    (st.lines.length = 1 →
      pickStep fo dflt st (.press 100 fevs)
        = .next st (some ("Cannot delete the last line", "error")) ∧
      transportStep fo dflt st (.press 100 fevs)
        = .next st (some ("Cannot delete the last slot", "error"))) := by
  refine ⟨runEditor_lenOK _ (pickStep_lenOK fo dflt) evs st h1,
    runEditor_lenOK _ (transportStep_lenOK fo dflt) evs st h1, ?_⟩
  intro hone
  have hne : st.lines ≠ [] := by
    intro hnil
    rw [hnil] at hone
    simp at hone
  constructor
  · simp only [pickStep]
    rw [if_neg (by simp [KEY_UP]), if_neg (by simp [KEY_DOWN]),
      if_neg (by decide), if_pos (by decide), if_neg (by omega)]
  · simp only [transportStep]
    rw [if_neg (by simp [KEY_UP]), if_neg (by simp [KEY_DOWN]),
      if_neg (by decide), if_pos ⟨by decide, hne⟩, if_neg (by omega)]

/-- C1 (witness): with one line present, a delete is rejected and the run
over a delete-then-add sequence keeps the set non-empty. -/
theorem recordset_never_empties_witness :
    1 ≤ ([[("Quantity", "10")]] : List Record).length ∧
    (edRunLenOK (runPickEditor [] [] [.press 100 [], .press 97 []]
        ⟨0, [[("Quantity", "10")]]⟩) ∧
      edRunLenOK (runTransportEditor [] [] [.press 100 [], .press 97 []]
        ⟨0, [[("Quantity", "10")]]⟩) ∧
      (([[("Quantity", "10")]] : List Record).length = 1 →
        pickStep [] [] ⟨0, [[("Quantity", "10")]]⟩ (.press 100 [])
          = .next ⟨0, [[("Quantity", "10")]]⟩
              (some ("Cannot delete the last line", "error")) ∧
        transportStep [] [] ⟨0, [[("Quantity", "10")]]⟩ (.press 100 [])
          = .next ⟨0, [[("Quantity", "10")]]⟩
              (some ("Cannot delete the last slot", "error")))) :=
  ⟨by decide,
    recordset_never_empties [] [] [.press 100 [], .press 97 []]
      ⟨0, [[("Quantity", "10")]]⟩ [] (by decide)⟩

/-! ## C2: contiguous slot numbering in the transport editor -/

/-- Appending a record whose Slot Number was just set to N+1 keeps the
numbering contiguous. -/
lemma slotsContiguous_append_new (lines : List Record) (base : Record)
    (h : slotsContiguous lines) :
    slotsContiguous
      (lines ++ [recSet base "Slot Number" (toString (lines.length + 1))]) := by
  intro i hi
  by_cases hlt : i < lines.length
  · rw [get_append_left_record lines _ i hlt hi]
    exact h i hlt
  · have hlen : i = lines.length := by
      simp only [List.length_append, List.length_cons, List.length_nil] at hi
      omega
    subst hlen
    rw [get_append_last_record]
    exact recGet?_recSet_self base "Slot Number" (toString (lines.length + 1))

/-- A renumbered list is contiguous from 1. -/
lemma slotsContiguous_renumber (ls : List Record) :
    slotsContiguous (renumberSlots 0 ls) := by
  intro i h
  have hg := renumberSlots_get ls 0 i h
  simpa using hg

/-- C2: in the transport line editor (the RecordSet whose schema carries
the sequencing field Slot Number), any add interaction on a contiguously
numbered set, and any delete interaction, leaves the Slot Number values
equal to 1..N in Record order. -/
theorem transport_sequencing_contiguous (fo : List String) (dflt : Record)
    (st : PickState) (c : Nat) (fevs : List FormEv) (st1 : PickState)
    (msg : Option (String × String))
    (hcont : slotsContiguous st.lines)
    (hkey : c = 97 ∨ c = 65 ∨ ((c = 100 ∨ c = 68) ∧ st.lines ≠ []))
    (hstep : transportStep fo dflt st (.press c fevs) = .next st1 msg) :
    slotsContiguous st1.lines := by
  have haddCase : ∀ (hadd : c = 97 ∨ c = 65), slotsContiguous st1.lines := by
    intro hadd
    simp only [transportStep] at hstep
    rw [if_neg (by rcases hadd with rfl | rfl <;> simp [KEY_UP]),
      if_neg (by rcases hadd with rfl | rfl <;> simp [KEY_DOWN]),
      if_pos hadd] at hstep
    injection hstep with hst hmsg
    rw [← hst]
    exact slotsContiguous_append_new st.lines _ hcont
  rcases hkey with hc | hc | ⟨hc, hne⟩
  · exact haddCase (Or.inl hc)
  · exact haddCase (Or.inr hc)
  · simp only [transportStep] at hstep
    rw [if_neg (by rcases hc with rfl | rfl <;> simp [KEY_UP]),
      if_neg (by rcases hc with rfl | rfl <;> simp [KEY_DOWN]),
      if_neg (by rcases hc with rfl | rfl <;> decide),
      if_pos ⟨hc, hne⟩] at hstep
    by_cases hlen : st.lines.length > 1
    · rw [if_pos hlen] at hstep
      injection hstep with hst hmsg
      rw [← hst]
      exact slotsContiguous_renumber (st.lines.eraseIdx st.idx)
    · rw [if_neg hlen] at hstep
      injection hstep with hst hmsg
      rw [← hst]
      exact hcont

/-- C2 (witness): adding a slot to a contiguously numbered singleton set
keeps the numbering 1..N. -/
theorem transport_sequencing_contiguous_witness :
    slotsContiguous [[("Slot Number", "1")]] ∧
    ((97 : Nat) = 97 ∨ (97 : Nat) = 65 ∨
      (((97 : Nat) = 100 ∨ (97 : Nat) = 68) ∧
        ([[("Slot Number", "1")]] : List Record) ≠ [])) ∧
    slotsContiguous
      ([[("Slot Number", "1")], [("Slot Number", "2")]] : List Record) := by
  have hbase : slotsContiguous [[("Slot Number", "1")]] := by
    intro i h
    have h0 : i = 0 := by
      simp only [List.length_cons, List.length_nil] at h
      omega
    subst h0
    rfl
  have hstep : transportStep [] [] ⟨0, [[("Slot Number", "1")]]⟩ (.press 97 [])
      = .next ⟨1, [[("Slot Number", "1")], [("Slot Number", "2")]]⟩
          (some ("New slot added", "success")) := by decide
  refine ⟨hbase, Or.inl rfl, ?_⟩
  exact transport_sequencing_contiguous [] [] ⟨0, [[("Slot Number", "1")]]⟩ 97 []
    ⟨1, [[("Slot Number", "1")], [("Slot Number", "2")]]⟩
    (some ("New slot added", "success")) hbase (Or.inl rfl) hstep

/-! ## C6 and C7: the confirmation and dispatch boundary -/

/-- Looking up the key just written by `cfgSet` yields the written value
(map branch). -/
lemma cfgGet?_map_set (c : Config) (k : String) (v : ConfigVal)
    (h : c.any (fun p => p.1 = k) = true) :
    cfgGet? (c.map (fun p => if p.1 = k then (k, v) else p)) k = some v := by
  induction c with
  | nil => simp at h
  | cons p ps ih =>
    by_cases hp : p.1 = k
    · simp [cfgGet?, hp]
    · have ht : ps.any (fun p => p.1 = k) = true := by
        simp only [List.any_cons, Bool.or_eq_true] at h
        rcases h with hh | hh
        · exact absurd (by simpa using hh) hp
        · exact hh
      simp only [List.map_cons, if_neg hp]
      unfold cfgGet? at ih ⊢
      rw [List.find?_cons_of_neg _ (by simpa using hp)]
      exact ih ht

/-- Looking up the key just written by `cfgSet` yields the written value
(append branch). -/
lemma cfgGet?_append_set (c : Config) (k : String) (v : ConfigVal)
    (h : c.any (fun p => p.1 = k) = false) :
    cfgGet? (c ++ [(k, v)]) k = some v := by
  induction c with
  | nil => simp [cfgGet?]
  | cons p ps ih =>
    have hp : ¬ p.1 = k := by
      simp only [List.any_cons, Bool.or_eq_false_iff] at h
      simpa using h.1
    have ht : ps.any (fun p => p.1 = k) = false := by
      simp only [List.any_cons, Bool.or_eq_false_iff] at h
      exact h.2
    unfold cfgGet? at ih ⊢
    rw [List.cons_append, List.find?_cons_of_neg _ (by simpa using hp)]
    exact ih ht

/-- Looking up the key just written by `cfgSet` yields the written value. -/
lemma cfgGet?_cfgSet_self (c : Config) (k : String) (v : ConfigVal) :
    cfgGet? (cfgSet c k v) k = some v := by
  unfold cfgSet
  split_ifs with h
  · exact cfgGet?_map_set c k v h
  · exact cfgGet?_append_set c k v ((Bool.not_eq_true _) ▸ h)

/-- C6: in the pick-order creation flow, when the editor reports send and
the operator answers no at the confirmation dialog, the flow returns
normally (back to the top menu), the history is unchanged (no entry
created), and the configuration saved to the store before the
confirmation still holds the edited lines. -/
theorem confirm_no_persists_edits_no_history (mode : String)
    (fieldOrder : List String) (dflt : Record) (cfg0 : Config)
    (hist : List HistEntry) (editorEvs : List PickEv) (confirmKeys : List Nat)
    (envOsr : String) (dryRun corbaAvailable : Bool)
    (corbaResult : Except String Unit) (now : String)
    (values0 : List Record) (stF : PickState) (xml : String)
    (hvals : cfgGet? cfg0 mode = some (.recs values0))
    (hrun : runPickEditor fieldOrder dflt editorEvs
        ⟨0, values0.map (fun v => recSet v "name" (cfgGetStrD cfg0 "name" "SRC"))⟩
      = .finished true stF)
    (hgen : generatePickStandard
        (values0.map (fun v => recSet v "name" (cfgGetStrD cfg0 "name" "SRC")))
      = .ok xml)
    (hxml : ¬ pyStrip xml = "")
    (hconf : confirmOutcome confirmKeys = some false) :
    ∃ cfg2 : Config,
      handleOrderCreationPick mode fieldOrder dflt cfg0 hist editorEvs confirmKeys
          envOsr dryRun corbaAvailable corbaResult now
        = some ⟨some cfg2, hist, [], some xml, false⟩ ∧
      cfgGet? cfg2 mode = some (.recs stF.lines) := by
  refine ⟨cfgSet
      (cfgSet cfg0 mode
        (.recs (values0.map (fun v => recSet v "name" (cfgGetStrD cfg0 "name" "SRC")))))
      mode (.recs stF.lines), ?_, ?_⟩
  · simp only [handleOrderCreationPick, hvals, hrun, hgen, hconf, if_true]
    rw [if_neg hxml]
  · exact cfgGet?_cfgSet_self _ mode (.recs stF.lines)

/-- The concrete pick config of the C6 witness. -/
def c6Line : Record :=
  [("Quantity", "10"), ("Product Code", "test01"), ("Product Name", "P1"),
   ("Order Number", "1"), ("Container / Tray Number", "T1")]

/-- The C6 witness configuration store. -/
def c6Config : Config :=
  [("name", .str "op"), ("Pick Standard", .recs [c6Line])]

/-- The order values after the operator name is set. -/
def c6Values : List Record :=
  [c6Line].map (fun v => recSet v "name" (cfgGetStrD c6Config "name" "SRC"))

/-- The payload the builder produces for the C6 witness. -/
def c6Xml : String := ((generatePickStandard c6Values).toOption).getD ""

/-- C6 (witness): a concrete run against a one-line pick config,
answering no at the confirmation, persists the name-stamped line and
records no history. -/
theorem confirm_no_persists_edits_no_history_witness :
    ∃ cfg2 : Config,
      handleOrderCreationPick "Pick Standard" [] [] c6Config []
          [.press 115 []] [110] "" false true (.ok ()) "t"
        = some ⟨some cfg2, [], [], some c6Xml, false⟩ ∧
      cfgGet? cfg2 "Pick Standard" = some (.recs c6Values) :=
  confirm_no_persists_edits_no_history "Pick Standard" [] [] c6Config []
    [.press 115 []] [110] "" false true (.ok ()) "t"
    [c6Line] ⟨0, c6Values⟩ c6Xml
    (by rfl) (by rfl) (by rfl) (by decide) (by rfl)

/-- C7: when the editor reports send, the payload validates, the operator
confirms, the OSR id resolves, and the dispatch collaborator raises (in a
real, non-dry-run send), the workflow catches the exception at the
`_send_order` boundary: the flow returns normally with an error dialog
that carries the failure detail, and the history is unchanged — no
collaborator error terminates the process. -/
theorem dispatch_failure_error_dialog_no_history (mode : String)
    (fieldOrder : List String) (dflt : Record) (cfg0 : Config)
    (hist : List HistEntry) (editorEvs : List PickEv) (confirmKeys : List Nat)
    (envOsr : String) (detail : String) (now : String)
    (values0 : List Record) (stF : PickState) (xml : String)
    (hvals : cfgGet? cfg0 mode = some (.recs values0))
    (hrun : runPickEditor fieldOrder dflt editorEvs
        ⟨0, values0.map (fun v => recSet v "name" (cfgGetStrD cfg0 "name" "SRC"))⟩
      = .finished true stF)
    (hgen : generatePickStandard
        (values0.map (fun v => recSet v "name" (cfgGetStrD cfg0 "name" "SRC")))
      = .ok xml)
    (hxml : ¬ pyStrip xml = "")
    (hconf : confirmOutcome confirmKeys = some true)
    (hosr : ¬ resolve_osr
        (cfgSet
          (cfgSet cfg0 mode
            (.recs (values0.map (fun v => recSet v "name" (cfgGetStrD cfg0 "name" "SRC")))))
          mode (.recs stF.lines)) envOsr = "") :
    ∃ cfg2 : Config,
      handleOrderCreationPick mode fieldOrder dflt cfg0 hist editorEvs confirmKeys
          envOsr false true (.error detail) now
        = some ⟨some cfg2, hist,
            ["Error sending order: " ++ ("Failed to send order: " ++ detail)],
            some xml, false⟩ := by
  refine ⟨cfgSet
      (cfgSet cfg0 mode
        (.recs (values0.map (fun v => recSet v "name" (cfgGetStrD cfg0 "name" "SRC")))))
      mode (.recs stF.lines), ?_⟩
  simp only [handleOrderCreationPick, hvals, hrun, hgen, hconf, if_true]
  rw [if_neg hxml]
  simp only [sendOrderFlow]
  rw [if_neg hosr]
  simp only [senderSend]
  rw [if_neg hxml]
  simp

/-- C7 (witness): the same concrete pick flow as the C6 witness, but
confirming yes with a failing CORBA send: the error dialog carries the
detail and the history stays empty. -/
theorem dispatch_failure_error_dialog_no_history_witness :
    ∃ cfg2 : Config,
      handleOrderCreationPick "Pick Standard" [] []
          (cfgSet c6Config "osr_id" (.str "OSR1")) []
          [.press 115 []] [121] "" false true (.error "backend down") "t"
        = some ⟨some cfg2, [],
            ["Error sending order: " ++ ("Failed to send order: " ++ "backend down")],
            some c6Xml, false⟩ :=
  dispatch_failure_error_dialog_no_history "Pick Standard" [] []
    (cfgSet c6Config "osr_id" (.str "OSR1")) []
    [.press 115 []] [121] "" "backend down" "t"
    [c6Line] ⟨0, c6Values⟩ c6Xml
    (by rfl) (by rfl) (by rfl) (by decide) (by rfl) (by decide)

/-! ## C8: end-to-end dry-run pick dispatch -/

/-- `FIELD_ORDER["Pick Standard"]` (src/config/defaults.py). -/
def FIELD_ORDER_PICK_STANDARD : List String :=
  ["Quantity", "Container / Tray Number", "Product Code", "Product Name",
   "Order Number", "name"]

/-- `DEFAULT_ORDER_VALUES["Pick Standard"][0]` (src/config/defaults.py):
one line with Quantity 10 and Product Code test01. -/
def DEFAULT_PICK_STANDARD_LINE : Record :=
  [("Order Number", "1"), ("Container / Tray Number", "T925001"),
   ("Quantity", "10"), ("Product Code", "test01"),
   ("Product Name", "Test-Product-1")]

/-- A configuration with operator name src, a live server, a configured
OSR id, and the default standard-pick line. -/
def demoConfig : Config :=
  [("name", .str "src"), ("server_type", .str "Live"),
   ("osr_id", .str "OSR1"),
   ("Pick Standard", .recs [DEFAULT_PICK_STANDARD_LINE])]

/-- C8: the end-to-end standard-pick flow over the default single line
(Quantity 10, Product Code test01), sent directly, confirmed yes, and
dispatched with the dry-run flag: the run creates exactly one history
entry whose status is the dry-run status and whose order id is the
operator name joined with the pick infix and the order number, and the
built payload contains that identifier. -/
theorem pick_dry_run_end_to_end :
    ∃ res : FlowRes,
      handleOrderCreationPick "Pick Standard" FIELD_ORDER_PICK_STANDARD
          DEFAULT_PICK_STANDARD_LINE demoConfig [] [.press 115 []] [121] ""
          true false (.ok ()) "2026-10-12 00:00:00"
        = some res ∧
      (∃ e, res.history = [e] ∧ e.status = "dry_run" ∧
        e.order_id = "src" ++ "-pick-" ++ "1" ∧ e.type = "Pick Standard") ∧
      (∃ xml, res.payload = some xml ∧
        pyIn ("src" ++ "-pick-" ++ "1") xml = true) ∧
      res.sandbox = false := by
  set_option maxRecDepth 10000 in
  exact ⟨_, rfl, ⟨_, rfl, rfl, by decide, by decide⟩, ⟨_, rfl, by decide⟩, rfl⟩

end OrderGui
